import Mathlib

/-!
# Verification of the SOL_GPT proxy service

Shallow embedding of the SOL_GPT repository (`SOL_GPT/main.py`,
`SOL_GPT/utils/rpc.py`, `SOL_GPT/utils/prices.py`, `SOL_GPT/utils/trade.py`)
and proofs about its endpoint logic.

Modelling conventions:
* Upstream HTTP responses are oracles passed as explicit arguments
  (`Except` for calls that may raise a client exception).
* FastAPI `HTTPException(status, detail)` raises are explicit result
  constructors; an exception that escapes every handler is a `raised` result.
* Python string operations are modelled on `List Char` / `String`
  (ASCII-faithful; the inputs considered here are ASCII).
* Python `/` on numbers is modelled as exact division on `ℚ`, except where a
  claim's truth depends on IEEE-754 binary64 rounding, for which a dedicated
  rounding model (`roundDouble`) is provided and used.
-/

namespace SolGPT

/-! ## Python string primitives (ASCII fragment) -/

/-- Whitespace test used by the model of Python `str.strip()`. -/
def pySpace (c : Char) : Bool := c.isWhitespace

/-- Model of Python `str.strip()` on the character list: drop leading and
trailing whitespace. -/
def pyStripList (cs : List Char) : List Char :=
  ((cs.dropWhile pySpace).reverse.dropWhile pySpace).reverse

/-- Model of Python `str.strip()`. -/
def pyStrip (s : String) : String := String.mk (pyStripList s.data)

/-- Model of Python `str.upper()` (ASCII). -/
def pyUpper (s : String) : String := String.mk (s.data.map Char.toUpper)

/-- Model of Python `str.lstrip("$")`: drop every leading dollar sign. -/
def pyLstripDollar (s : String) : String :=
  String.mk (s.data.dropWhile (fun c => c = '$'))

/-- Model of Python `str.isalnum()` (ASCII fragment): non-empty and every
character alphanumeric. -/
def pyIsAlnum (s : String) : Bool :=
  !s.data.isEmpty && s.data.all Char.isAlphanum

/-- The normalisation performed at `main.py:116`:
`symbol.strip().upper().lstrip("$").strip()`. -/
def pyNormalize (s : String) : String :=
  pyStrip (pyLstripDollar (pyUpper (pyStrip s)))

/-! ## Constants (`main.py:32-33`) -/

/-- Constant `USDC_MINT` from `main.py:32`. -/
def USDC_MINT : String := "EPjFWdd5AufqSSqeM2qN1xzybapC8G4wEGGkZwyTDt1v"

/-- Constant `WSOL_MINT` from `main.py:33`. -/
def WSOL_MINT : String := "So11111111111111111111111111111111111111112"

/-! ## SPL token list entries and symbol resolution (`main.py:107-132`) -/

/-- One entry of the SPL token list.  Fields are optional because the code
accesses them with `dict.get` (missing `symbol` defaults to `""`, missing
`address` yields Python `None`). -/
structure TokenEntry where
  symbol : Option String
  address : Option String
deriving DecidableEq, Repr

/-- The mint-shape test at `main.py:124`: `32 <= len(raw) <= 44 and
raw.isalnum()`. -/
def isMintShaped (raw : String) : Bool :=
  decide (32 ≤ raw.length) && decide (raw.length ≤ 44) && pyIsAlnum raw

/-- Result of `resolve_symbol_or_mint`: a normal return of a mint value, or a
raised `HTTPException` with the given status code. -/
inductive Resolved where
  | ok (mint : Option String)
  | httpError (status : Nat)
deriving DecidableEq, Repr

/-- Model of `resolve_symbol_or_mint` (`main.py:107-132`).  Returns `.ok mint` for a
normal return (`mint` is `Option String` because a matched token-list entry
may lack an `address` key) and `.httpError 404` for the
`HTTPException(status_code=404)` raise. -/
def resolve_symbol_or_mint (tokens : List TokenEntry) (symbol : String) :
    Resolved :=
  let raw := pyNormalize symbol
  if raw = "SOL" ∨ raw = "WSOL" then .ok (some WSOL_MINT)
  else if raw = "USDC" then .ok (some USDC_MINT)
  else if isMintShaped raw then .ok (some raw)
  else
    match tokens.find? (fun t => pyUpper (t.symbol.getD "") == raw) with
    | some t => .ok t.address
    | none => .httpError 404

/-! ## IEEE-754 binary64 rounding model

`main.py:275` computes a token amount with Python float division
`int(t["amount"]) / (10**t["decimals"])`.  CPython computes the correctly
rounded binary64 double of the exact rational quotient, so we model the
resulting value as round-to-nearest, ties-to-even with a 53-bit significand.
(The model covers the normal range of binary64, which contains every value
considered in the theorems below; overflow and subnormal rounding are outside
its scope.) -/

/-- Round a rational to the nearest integer, ties to even. -/
def roundHalfEven (q : ℚ) : ℤ :=
  if q - ⌊q⌋ < 1/2 then ⌊q⌋
  else if (1 : ℚ)/2 < q - ⌊q⌋ then ⌊q⌋ + 1
  else if ⌊q⌋ % 2 = 0 then ⌊q⌋ else ⌊q⌋ + 1

/-- Scale a positive rational into the binade `[2^52, 2^53)` by repeated
doubling/halving, returning the scaled significand together with the binary
exponent `e` such that the input equals `significand * 2^e`.  The fuel bound
covers the full exponent range of binary64. -/
def scaleInto : ℕ → ℚ → ℤ → ℚ × ℤ
  | 0, q, e => (q, e)
  | f + 1, q, e =>
    if q < 2^52 then scaleInto f (q * 2) (e - 1)
    else if 2^53 ≤ q then scaleInto f (q / 2) (e + 1)
    else (q, e)

/-- The binary64 double nearest to a rational (round to nearest, ties to
even), as an exact rational. -/
def roundDouble (q : ℚ) : ℚ :=
  if q = 0 then 0
  else
    let a := if q < 0 then -q else q
    let p := scaleInto 1200 a 0
    let v := (roundHalfEven p.1 : ℚ) * (2 : ℚ) ^ p.2
    if q < 0 then -v else v

/-- Value of the Python float `amt = int(t["amount"]) / (10**t["decimals"])`
computed at `main.py:275` for a token entry with raw integer amount `a` and
decimal count `d`. -/
def walletTokenAmountVal (a d : ℕ) : ℚ :=
  roundDouble ((a : ℚ) / 10 ^ d)

/-! ## Plain decimal strings

The wallet endpoint reports the token amount as `str(amt)`
(`main.py:278`).  A "human-readable decimal string" in the sense of the
specification is `[-]digits[.digits]`; `parseDecimal` gives such a string its
rational value. -/

/-- Syntactic parts of a plain decimal string: sign, the digit string read as
a natural number (integer and fractional digits concatenated), and the number
of fractional digits. -/
structure DecParts where
  neg : Bool
  digits : ℕ
  fracLen : ℕ
deriving DecidableEq, Repr

/-- Accumulate the value of a digit string; `none` on a non-digit. -/
def digitsValAux : ℕ → List Char → Option ℕ
  | acc, [] => some acc
  | acc, c :: rest =>
    if c.isDigit then digitsValAux (acc * 10 + (c.toNat - 48)) rest else none

/-- Value of a non-empty string of decimal digits. -/
def digitsVal? (cs : List Char) : Option ℕ :=
  if cs.isEmpty then none else digitsValAux 0 cs

/-- Parse a plain decimal string `[-]digits[.digits]` into its parts; `none`
if the string is not of that form. -/
def parseDecimalParts (s : String) : Option DecParts :=
  let cs := s.data
  let signed : Bool × List Char :=
    match cs with
    | '-' :: rest => (true, rest)
    | _ => (false, cs)
  let intPart := signed.2.takeWhile (fun c => c ≠ '.')
  let rest := signed.2.dropWhile (fun c => c ≠ '.')
  match rest with
  | [] => (digitsVal? intPart).map (fun n => ⟨signed.1, n, 0⟩)
  | _ :: frac =>
    match digitsVal? intPart, digitsVal? frac with
    | some n, some m => some ⟨signed.1, n * 10 ^ frac.length + m, frac.length⟩
    | _, _ => none

/-- Rational value of parsed decimal parts. -/
def decPartsVal (p : DecParts) : ℚ :=
  (if p.neg then -1 else 1) * (p.digits : ℚ) / 10 ^ p.fracLen

/-- Rational value denoted by a plain decimal string `[-]digits[.digits]`;
`none` if the string is not of that form. -/
def parseDecimal (s : String) : Option ℚ :=
  (parseDecimalParts s).map decPartsVal

/-! ## `load_spl_token_list` (`main.py:53-66`)

The loop tries each URL of `TOKEN_LIST_URLS` in order; the whole request and
JSON extraction is wrapped in `except Exception`, so a failed fetch moves to
the next URL and, after the last, the function returns `[]`.  A successful
fetch returns `r.json().get("tokens", [])`, hence `none` (a JSON document
without a `tokens` key) yields `[]`.  Each URL's behaviour is an oracle entry:
`.error` for a raised exception (connection error, non-2xx status via
`raise_for_status`, JSON decode error), `.ok` for a decoded document. -/

/-- Model of `load_spl_token_list`, as a function of the per-URL fetch outcomes. -/
def load_spl_token_list : List (Except String (Option (List TokenEntry))) → List TokenEntry
  | [] => []
  | .ok doc :: _ => doc.getD []
  | .error _ :: rest => load_spl_token_list rest

/-! ## `GET /wallet/{address}` (`main.py:253-289`) -/

/-- A token entry of the Helius balance response (`data["tokens"]`), with the
fields read at `main.py:275-279`. -/
structure RawToken where
  mint : String
  amount : ℕ
  decimals : ℕ
deriving DecidableEq, Repr

/-- Decoded JSON body of the Helius balance response.  `lamports` is optional
because the code reads it with `data.get("lamports", 0)`. -/
structure WalletData where
  lamports : Option ℕ
  tokens : List RawToken
deriving DecidableEq, Repr

/-- A reported token balance (`main.py:276-280`).  `amount` is reported by the
code as `str(amt)`; the model keeps the exact rational value of the Python
float `amt` (see `walletTokenAmountVal`). -/
structure TokenOut where
  mint : String
  amountVal : ℚ
  decimals : ℕ
deriving DecidableEq, Repr

/-- Successful response body of the wallet endpoint (`main.py:282-286`).
`sol_balance` is modelled as the exact rational quotient (see the header
note on division). -/
structure WalletResponse where
  address : String
  sol_balance : ℚ
  tokens : List TokenOut
deriving DecidableEq, Repr

/-- Outcome of the wallet endpoint. -/
inductive WalletResult where
  | ok (resp : WalletResponse)
  | httpError (status : Nat) (detail : String)
deriving DecidableEq, Repr

/-- Model of `get_wallet_balances` (`main.py:253-289`).  `fetch` is the oracle for the
Helius balance call (`.error` when the HTTP client raises).  The second
component records whether the upstream (Helius) call was made. -/
def get_wallet_balances (address : String) (heliusKey : Option String)
    (fetch : Except String WalletData) : WalletResult × Bool :=
  if address.length < 32 ∨ 44 < address.length then
    (.httpError 400 "Invalid Solana address", false)
  else
    match heliusKey with
    | none => (.httpError 501 "Helius API key not configured", false)
    | some _ =>
      match fetch with
      | .error _ => (.httpError 502 "Failed to fetch wallet balances", true)
      | .ok data =>
        (.ok
          { address := address
            sol_balance := ((data.lamports.getD 0 : ℕ) : ℚ) / 10 ^ 9
            tokens := data.tokens.map (fun t =>
              { mint := t.mint
                amountVal := walletTokenAmountVal t.amount t.decimals
                decimals := t.decimals }) }, true)

/-! ## `GET /price/{symbol_or_mint}` (`main.py:161-246`) -/

/-- A price provider contacted by the service. -/
inductive Provider where
  | jupiter
  | birdeye
  | coingecko
deriving DecidableEq, Repr

/-- One entry of the Helius token-metadata response (`main.py:192`). -/
structure MetaEntry where
  decimals : Option ℕ
deriving DecidableEq, Repr

/-- One Jupiter quote (`main.py:212`).  `outAmount` is a JSON string in the
real response; it is modelled as its parsed integer, with `none` covering a
missing, empty or unparseable field (each of which makes the code fall
through to the CoinGecko branch, via falsiness or via the
`except Exception`). -/
structure JupQuote where
  outAmount : Option ℤ
deriving DecidableEq, Repr

/-- The CoinGecko lookup tables built by `build_coingecko_mappings`
(`main.py:86-101`), abstracted as the two lookup functions the price endpoint
uses. -/
structure CGMaps where
  mint_to_cgid : String → Option String
  symbol_to_cgid : String → Option String

/-- Upstream behaviour of one price-endpoint request: the cached SPL token
list, the configured Helius key, and the four outbound calls.
* `metadata`: Helius token metadata; `.ok none` models a 200 body that is not
  a JSON list (`isinstance` check at `main.py:190`).
* `jupiter`: the quote call; the payload is `json().get("data", [])`.
* `cgFetch`: `build_coingecko_mappings` (which fetches the CoinGecko coin
  list with no exception handler, `main.py:78-79`).
* `cgPrice`: the CoinGecko simple-price call;
  `.ok none` models a body without a price (`.get(cg_id, {}).get("usd")`). -/
structure PriceUpstream where
  tokenList : List TokenEntry
  heliusKey : Option String
  metadata : Except String (Option (List MetaEntry))
  jupiter : Except String (List JupQuote)
  cgFetch : Except String CGMaps
  cgPrice : Except String (Option ℚ)

/-- Outcome of the price endpoint.  `raised` is an exception that escapes the
endpoint (no `HTTPException` was raised for it). -/
inductive PriceResult where
  | ok (mint : Option String) (price : ℚ) (source : String)
  | httpError (status : Nat) (detail : String)
  | raised (e : String)
deriving DecidableEq, Repr

/-- The Jupiter price extraction at `main.py:210-215`: the first quote's
`outAmount` divided by `10^6`, or `none` when the call failed, the `data`
list is empty, or `outAmount` is missing/falsy. -/
def jupiterPrice : Except String (List JupQuote) → Option ℚ
  | .error _ => none
  | .ok [] => none
  | .ok (q :: _) =>
    match q.outAmount with
    | none => none
    | some n => some ((n : ℚ) / 10 ^ 6)

/-- The normalisation at `main.py:225` used for the CoinGecko symbol lookup:
`symbol_or_mint.strip().upper().lstrip("$")` (note: no trailing strip). -/
def pyNormalizeCg (s : String) : String :=
  pyLstripDollar (pyUpper (pyStrip s))

/-- The CoinGecko id lookup at `main.py:221-228`: first by mint in
`mint_to_cgid`, then by the normalised original query in `symbol_to_cgid`. -/
def cgLookup (maps : CGMaps) (mint : Option String) (symbol_or_mint : String) :
    Option String :=
  match (match mint with | some m2 => maps.mint_to_cgid m2 | none => none) with
  | some i => some i
  | none => maps.symbol_to_cgid (pyNormalizeCg symbol_or_mint)

/-- Model of `get_token_price` (`main.py:161-246`).  Returns the outcome together with
the list of price providers consulted, in order. -/
def get_token_price (symbol_or_mint : String) (u : PriceUpstream) :
    PriceResult × List Provider :=
  match resolve_symbol_or_mint u.tokenList symbol_or_mint with
  | .httpError s => (.httpError s ("Token not found"), [])
  | .ok mint =>
    if mint = some USDC_MINT then (.ok mint 1 "static", [])
    else
      match u.heliusKey with
      | none => (.httpError 501 "Helius API key not configured", [])
      | some _ =>
        match u.metadata with
        | .error _ => (.httpError 502 "Failed to fetch token metadata", [])
        | .ok none => (.httpError 404 "Token metadata not found", [])
        | .ok (some []) => (.httpError 404 "Token metadata not found", [])
        | .ok (some (m :: _)) =>
          match m.decimals with
          | none => (.httpError 404 "Decimals unavailable", [])
          | some _ =>
            match jupiterPrice u.jupiter with
            | some p => (.ok mint p "jupiter", [.jupiter])
            | none =>
              match u.cgFetch with
              | .error e => (.raised e, [.jupiter, .coingecko])
              | .ok maps =>
                match cgLookup maps mint symbol_or_mint with
                | none =>
                  (.httpError 404 "Token not found on CoinGecko", [.jupiter, .coingecko])
                | some _ =>
                  match u.cgPrice with
                  | .error _ =>
                    (.httpError 502 "Failed to fetch price from CoinGecko",
                      [.jupiter, .coingecko])
                  | .ok none =>
                    (.httpError 404 "Price not available on CoinGecko",
                      [.jupiter, .coingecko])
                  | .ok (some p) => (.ok mint p "coingecko", [.jupiter, .coingecko])

/-! ## `GET /swap` (`main.py:296-337`) -/

/-- One Jupiter swap route entry (`main.py:322-331`).  `outAmount` is
`int(best["outAmount"])`: `none` models a missing or unparseable field, whose
`KeyError`/`ValueError` is caught by the `except Exception` handler. -/
structure SwapQuote where
  outAmount : Option ℤ
  route : List String
deriving DecidableEq, Repr

/-- Outcome of the swap endpoint. -/
inductive SwapEndpointResult where
  | ok (inputMint outputMint : String) (inAmount outAmount : ℚ)
      (slippageBps : ℤ) (route : List String)
  | okNoneMint (result : Option String × Option String)
  | httpError (status : Nat) (detail : String)
deriving DecidableEq, Repr

/-- Model of the `simulate_swap` endpoint (`main.py:296-337`).  `quote` is the oracle for
the Jupiter quote call (the payload is `json().get("data", [])`).  The
`okNoneMint` constructor covers the degenerate path in which a token-list
entry without an `address` key resolved to Python `None`. -/
def simulate_swap_endpoint (inputMint outputMint : String) (amount : ℚ)
    (slippageBps : ℤ) (tokens : List TokenEntry)
    (quote : Except String (List SwapQuote)) : SwapEndpointResult :=
  match resolve_symbol_or_mint tokens inputMint,
      resolve_symbol_or_mint tokens outputMint with
  | .httpError s, _ => .httpError s "Token not found"
  | .ok _, .httpError s => .httpError s "Token not found"
  | .ok inM, .ok outM =>
    match quote with
    | .error _ => .httpError 502 "Failed to fetch swap quote"
    | .ok [] => .httpError 404 "No liquidity route found"
    | .ok (best :: _) =>
      match best.outAmount with
      | none => .httpError 502 "Failed to fetch swap quote"
      | some n =>
        match inM, outM with
        | some i, some o => .ok i o amount ((n : ℚ) / 10 ^ 6) slippageBps best.route
        | _, _ => .okNoneMint (inM, outM)

/-! ## `utils/prices.py`: the Birdeye price helper -/

/-- An exception value in the Python model. -/
inductive PyExc where
  | httpException (status : Nat) (detail : String)
  | clientError (e : String)
deriving DecidableEq, Repr

/-- Result of `utils.prices.get_token_price`: a returned JSON body, the
error dictionary built for a non-200 status, or a propagated exception. -/
inductive BirdeyeResult where
  | body (price : Option ℚ)
  | errorDict (status : Nat)
  | raised (e : PyExc)
deriving DecidableEq, Repr

/-- Model of `utils.prices.get_token_price` (`utils/prices.py:9-20`).  The
`requests.get` call has no exception handler, so a raised client error
propagates; a non-200 response is turned into an error dictionary; a 200
response is returned as its JSON body (modelled by its parsed `price`
field). -/
def prices_get_token_price (resp : Except String (Nat × Option ℚ)) :
    BirdeyeResult :=
  match resp with
  | .error e => .raised (.clientError e)
  | .ok (status, price) =>
    if status = 200 then .body price else .errorDict status

/-! ## `utils/trade.py`: the mock swap simulation -/

/-- Result of `utils.trade.simulate_swap`: the success dictionary, the
price-parse error dictionary, or a propagated `ZeroDivisionError` (the
division at `utils/trade.py:18` is outside the `try` block). -/
inductive TradeResult where
  | ok (estimated : ℚ) (slippage : ℚ) (route : List String)
  | parseError
  | zeroDivRaised
deriving DecidableEq, Repr

/-- Model of `utils.trade.simulate_swap` (`utils/trade.py:3-27`).  `priceOf` gives the
parsed `float(data.get("price"))` for each mint, `none` when that parse
raises (missing key, `None`, or unparseable).  The reported
`estimated_output` is the value `final_amount` (its `:.6f` presentation is
not modelled); the reported slippage is the constant `0.005` and the route is
`[input_mint, "USDC", output_mint]`. -/
def simulate_swap (priceOf : String → Option ℚ) (input_mint output_mint : String)
    (amount : ℚ) : TradeResult :=
  match priceOf input_mint, priceOf output_mint with
  | some in_price, some out_price =>
    if out_price = 0 then .zeroDivRaised
    else
      .ok (in_price * amount / out_price * (1 - 5/1000)) (5/1000)
        [input_mint, "USDC", output_mint]
  | _, _ => .parseError

/-! ## `utils/rpc.py`: the RPC wallet helper -/

/-- Constant `LAMPORTS_PER_SOL` (`utils/rpc.py:5`). -/
def LAMPORTS_PER_SOL : ℕ := 1000000000

/-- A token account of the `getTokenAccountsByOwner` response, with the
fields read at `utils/rpc.py:30-37`. -/
structure RpcTokenAccount where
  mint : String
  uiAmountString : String
  decimals : ℕ
deriving DecidableEq, Repr

/-- A reported token balance of the RPC helper (`utils/rpc.py:33-37`). -/
structure RpcTokenOut where
  mint : String
  amount : String
  decimals : ℕ
deriving DecidableEq, Repr

/-- Response of `get_wallet_info`. -/
structure WalletInfo where
  address : String
  sol_balance : ℚ
  tokens : List RpcTokenOut
deriving DecidableEq, Repr

/-- Model of `utils.rpc.get_wallet_info` (`utils/rpc.py:8-43`), on the success path:
`balanceValue` is `bal_resp["result"]["value"]` and `accounts` the parsed
token accounts.  `sol_balance` divides by `LAMPORTS_PER_SOL` (division
modelled exactly on `ℚ`). -/
def get_wallet_info (address : String) (balanceValue : ℕ)
    (accounts : List RpcTokenAccount) : WalletInfo :=
  { address := address
    sol_balance := (balanceValue : ℚ) / (LAMPORTS_PER_SOL : ℚ)
    tokens := accounts.map (fun a =>
      { mint := a.mint, amount := a.uiAmountString, decimals := a.decimals }) }

/-! ## Concrete fixtures used in counterexamples and witnesses -/

/-- A 32-character lowercase alphanumeric query (mint-shaped after
normalisation). -/
def lowerMintQuery : String := "abcdefghijklmnopqrstuvwxyzabcdef"

/-- The uppercase form of `lowerMintQuery`. -/
def upperMintQuery : String := "ABCDEFGHIJKLMNOPQRSTUVWXYZABCDEF"

/-- Price-endpoint upstream in which the Jupiter quote call fails and
CoinGecko succeeds. -/
def jupiterDownUpstream : PriceUpstream :=
  { tokenList := []
    heliusKey := some "key"
    metadata := .ok (some [{ decimals := some 6 }])
    jupiter := .error "connection reset"
    cgFetch := .ok { mint_to_cgid := fun _ => some "cg-id", symbol_to_cgid := fun _ => none }
    cgPrice := .ok (some 2) }

/-- Price-endpoint upstream with no Helius key configured and every call
failing. -/
def noKeyUpstream : PriceUpstream :=
  { tokenList := []
    heliusKey := none
    metadata := .error "down"
    jupiter := .error "down"
    cgFetch := .error "down"
    cgPrice := .error "down" }

/-- Birdeye price table whose output-mint price is zero. -/
def zeroOutPriceOf : String → Option ℚ :=
  fun s => if s = "MINTB" then some 0 else some 2

/-- A small token list with a duplicated symbol, for first-match checks. -/
def demoTokens : List TokenEntry :=
  [⟨some "AAA", some "a0"⟩, ⟨some "BONK", some "b1"⟩, ⟨some "BONK", some "b2"⟩]

/-- Price-endpoint upstream whose Helius metadata call raises. -/
def metaDownUpstream : PriceUpstream :=
  { tokenList := []
    heliusKey := some "key"
    metadata := .error "boom"
    jupiter := .error "down"
    cgFetch := .error "down"
    cgPrice := .error "down" }

/-- Price-endpoint upstream whose metadata call returns an empty list. -/
def emptyMetaUpstream : PriceUpstream :=
  { tokenList := []
    heliusKey := some "key"
    metadata := .ok (some [])
    jupiter := .error "down"
    cgFetch := .error "down"
    cgPrice := .error "down" }

/-- Price-endpoint upstream whose metadata entry has no decimals. -/
def noDecimalsUpstream : PriceUpstream :=
  { tokenList := []
    heliusKey := some "key"
    metadata := .ok (some [{ decimals := none }])
    jupiter := .error "down"
    cgFetch := .error "down"
    cgPrice := .error "down" }

/-- Price-endpoint upstream in which Jupiter returns no routes and CoinGecko
knows the token but returns no usd price. -/
def cgNoPriceUpstream : PriceUpstream :=
  { tokenList := []
    heliusKey := some "key"
    metadata := .ok (some [{ decimals := some 6 }])
    jupiter := .ok []
    cgFetch := .ok { mint_to_cgid := fun _ => some "cg-id", symbol_to_cgid := fun _ => none }
    cgPrice := .ok none }

end SolGPT

namespace SolGPT

/-! ## Helper lemmas: the binary64 rounding model -/

lemma scaleInto_stop (f : ℕ) (q : ℚ) (e : ℤ) (h1 : 2^52 ≤ q) (h2 : q < 2^53) :
    scaleInto f q e = (q, e) := by
  cases f with
  | zero => rfl
  | succ f => simp [scaleInto, not_lt.mpr h1, not_le.mpr h2]

lemma scaleInto_succ (f : ℕ) (q : ℚ) (e : ℤ) :
    scaleInto (f + 1) q e =
      if q < 2^52 then scaleInto f (q * 2) (e - 1)
      else if 2^53 ≤ q then scaleInto f (q / 2) (e + 1)
      else (q, e) := rfl

lemma scaleInto_of_lt (fuel : ℕ) (n : ℕ) (t e : ℤ)
    (hq : (n : ℚ) * 2^t < 2^53)
    (hfuel : (2:ℚ)^52 < (n : ℚ) * 2^(t + fuel)) :
    ∃ k : ℕ, scaleInto fuel ((n : ℚ) * 2^t) e = ((n : ℚ) * 2^(t + k), e - k) ∧
      (2:ℚ)^52 ≤ (n : ℚ) * 2^(t + k) ∧ (n : ℚ) * 2^(t + k) < 2^53 := by
  induction fuel generalizing t e with
  | zero =>
    refine ⟨0, ?_, ?_, ?_⟩ <;> simp only [Nat.cast_zero, add_zero, sub_zero]
    · simp [scaleInto]
    · simp only [Nat.cast_zero, add_zero] at hfuel
      exact le_of_lt hfuel
    · exact hq
  | succ f ih =>
    by_cases hlt : (n : ℚ) * 2^t < 2^52
    · have hstep : scaleInto (f + 1) ((n : ℚ) * 2^t) e
          = scaleInto f ((n : ℚ) * 2^(t+1)) (e - 1) := by
        have h2 : (n : ℚ) * 2^t * 2 = (n : ℚ) * 2^(t+1) := by
          rw [zpow_add_one₀ (by norm_num : (2:ℚ) ≠ 0)]; ring
        simp [scaleInto, hlt, h2]
      have hq2 : (n : ℚ) * 2^(t+1) < 2^53 := by
        rw [zpow_add_one₀ (by norm_num : (2:ℚ) ≠ 0)]
        calc (n:ℚ) * (2^t * 2) = ((n:ℚ) * 2^t) * 2 := by ring
        _ < 2^52 * 2 := by linarith
        _ = 2^53 := by norm_num
      have hf2 : (2:ℚ)^52 < (n : ℚ) * 2^((t+1) + f) := by
        have h3 : (t + 1) + (f : ℤ) = t + ((f + 1 : ℕ) : ℤ) := by push_cast; ring
        rw [h3]; exact hfuel
      obtain ⟨k, hk, hge, hlt2⟩ := ih (t+1) (e-1) hq2 hf2
      have hexp : t + 1 + (k : ℤ) = t + ((k + 1 : ℕ) : ℤ) := by push_cast; ring
      have hexp2 : e - 1 - (k : ℤ) = e - ((k + 1 : ℕ) : ℤ) := by push_cast; ring
      refine ⟨k + 1, ?_, ?_, ?_⟩
      · rw [hstep, hk, hexp, hexp2]
      · rw [← hexp]; exact hge
      · rw [← hexp]; exact hlt2
    · have h52 : (2:ℚ)^52 ≤ (n:ℚ) * 2^t := not_lt.mp hlt
      refine ⟨0, ?_, ?_, ?_⟩ <;> simp only [Nat.cast_zero, add_zero, sub_zero]
      · rw [scaleInto_stop _ _ _ h52 hq]
      · exact h52
      · exact hq

lemma scaleInto_of_ge (fuel : ℕ) (n : ℕ) (t e : ℤ)
    (hq : (2:ℚ)^52 ≤ (n : ℚ) * 2^t)
    (hfuel : (n : ℚ) * 2^(t - fuel) < 2^53) :
    ∃ k : ℕ, scaleInto fuel ((n : ℚ) * 2^t) e = ((n : ℚ) * 2^(t - k), e + k) ∧
      (2:ℚ)^52 ≤ (n : ℚ) * 2^(t - k) ∧ (n : ℚ) * 2^(t - k) < 2^53 := by
  induction fuel generalizing t e with
  | zero =>
    refine ⟨0, ?_, ?_, ?_⟩ <;> simp only [Nat.cast_zero, sub_zero, add_zero]
    · simp [scaleInto]
    · exact hq
    · simp only [Nat.cast_zero, sub_zero] at hfuel
      exact hfuel
  | succ f ih =>
    by_cases hge : (2:ℚ)^53 ≤ (n : ℚ) * 2^t
    · have hstep : scaleInto (f + 1) ((n : ℚ) * 2^t) e
          = scaleInto f ((n : ℚ) * 2^(t-1)) (e + 1) := by
        have hnlt : ¬ ((n : ℚ) * 2^t < 2^52) := by
          push_neg
          calc (2:ℚ)^52 ≤ 2^53 := by norm_num
          _ ≤ (n:ℚ) * 2^t := hge
        have h2 : (n : ℚ) * 2^t / 2 = (n : ℚ) * 2^(t-1) := by
          rw [zpow_sub_one₀ (by norm_num : (2:ℚ) ≠ 0)]; ring
        simp [scaleInto, hnlt, hge, h2]
      have hq2 : (2:ℚ)^52 ≤ (n : ℚ) * 2^(t-1) := by
        rw [zpow_sub_one₀ (by norm_num : (2:ℚ) ≠ 0)]
        have h4 : (2:ℚ)^53 * 2⁻¹ ≤ ((n:ℚ) * 2^t) * 2⁻¹ := by
          apply mul_le_mul_of_nonneg_right hge; norm_num
        calc (2:ℚ)^52 = 2^53 * 2⁻¹ := by norm_num
        _ ≤ ((n:ℚ) * 2^t) * 2⁻¹ := h4
        _ = (n:ℚ) * (2^t * 2⁻¹) := by ring
      have hf2 : (n : ℚ) * 2^((t-1) - f) < 2^53 := by
        have h3 : (t - 1) - (f : ℤ) = t - ((f + 1 : ℕ) : ℤ) := by push_cast; ring
        rw [h3]; exact hfuel
      obtain ⟨k, hk, hge2, hlt2⟩ := ih (t-1) (e+1) hq2 hf2
      have hexp : t - 1 - (k : ℤ) = t - ((k + 1 : ℕ) : ℤ) := by push_cast; ring
      have hexp2 : e + 1 + (k : ℤ) = e + ((k + 1 : ℕ) : ℤ) := by push_cast; ring
      refine ⟨k + 1, ?_, ?_, ?_⟩
      · rw [hstep, hk, hexp, hexp2]
      · rw [← hexp]; exact hge2
      · rw [← hexp]; exact hlt2
    · have hlt53 : (n : ℚ) * 2^t < 2^53 := not_le.mp hge
      refine ⟨0, ?_, ?_, ?_⟩ <;> simp only [Nat.cast_zero, sub_zero, add_zero]
      · rw [scaleInto_stop _ _ _ hq hlt53]
      · exact hq
      · exact hlt53

lemma roundHalfEven_intCast (n : ℤ) : roundHalfEven (n : ℚ) = n := by
  simp [roundHalfEven]

lemma roundHalfEven_natCast (n : ℕ) : roundHalfEven (n : ℚ) = n := by
  have h := roundHalfEven_intCast (n : ℤ)
  push_cast at h
  exact_mod_cast h

lemma sig_nat (n : ℕ) (u : ℤ) (hge : (2:ℚ)^52 ≤ (n:ℚ) * 2^u) (h2 : n < 2^53) :
    ∃ N : ℕ, ((N : ℚ) = (n:ℚ) * 2^u ∧ (N : ℤ) = n * 2^u.toNat) := by
  have hu : 0 ≤ u := by
    by_contra h
    push_neg at h
    have h3 : u ≤ -1 := by omega
    have h4 : (2:ℚ)^u ≤ 2^(-1 : ℤ) :=
      zpow_le_zpow_right₀ (by norm_num) h3
    have h5 : (n:ℚ) * 2^u < 2^53 * 2^(-1 : ℤ) := by
      have hn : (n:ℚ) < 2^53 := by exact_mod_cast h2
      have hpos : (0:ℚ) < 2^u := zpow_pos (by norm_num) u
      calc (n:ℚ) * 2^u < 2^53 * 2^u := by
            apply mul_lt_mul_of_pos_right hn hpos
      _ ≤ 2^53 * 2^(-1 : ℤ) := by
            apply mul_le_mul_of_nonneg_left h4; norm_num
    have h6 : (2:ℚ)^53 * 2^(-1 : ℤ) = 2^52 := by
      norm_num [zpow_neg]
    rw [h6] at h5
    linarith
  refine ⟨n * 2^u.toNat, ?_, ?_⟩
  · push_cast
    rw [← zpow_natCast (2:ℚ) u.toNat, Int.toNat_of_nonneg hu]
  · push_cast; ring

lemma roundDouble_dyadic (n : ℕ) (t : ℤ) (h1 : 0 < n) (h2 : n < 2^53)
    (ht1 : -1100 ≤ t) (ht2 : t ≤ 1100) :
    roundDouble ((n:ℚ) * 2^t) = (n:ℚ) * 2^t := by
  have hq0 : (0:ℚ) < (n:ℚ) * 2^t := by
    apply mul_pos _ (zpow_pos (by norm_num) t)
    exact_mod_cast h1
  rw [roundDouble, if_neg (ne_of_gt hq0), if_neg (not_lt.mpr (le_of_lt hq0))]
  simp only [if_neg (not_lt.mpr (le_of_lt hq0))]
  by_cases hcase : (n:ℚ) * 2^t < 2^53
  · have hfuel : (2:ℚ)^52 < (n:ℚ) * 2^(t + (1200:ℕ)) := by
      have hn1 : (1:ℚ) ≤ (n:ℚ) := by exact_mod_cast h1
      have hexp : (2:ℚ)^(100:ℤ) ≤ 2^(t + (1200:ℕ)) := by
        apply zpow_le_zpow_right₀ (by norm_num)
        push_cast
        omega
      calc (2:ℚ)^52 < 2^(100:ℤ) := by
            rw [show ((100:ℤ)) = ((100:ℕ):ℤ) by norm_num, zpow_natCast]
            norm_num
      _ ≤ 2^(t + (1200:ℕ)) := hexp
      _ ≤ (n:ℚ) * 2^(t + (1200:ℕ)) := by
            nlinarith [zpow_pos (show (0:ℚ) < 2 by norm_num) (t + (1200:ℕ))]
    obtain ⟨k, hk, hge, hlt⟩ := scaleInto_of_lt 1200 n t 0 hcase hfuel
    obtain ⟨N, hN, _⟩ := sig_nat n (t + k) hge h2
    rw [hk]
    simp only
    rw [← hN, roundHalfEven_natCast]
    push_cast
    rw [hN]
    rw [mul_assoc, ← zpow_add₀ (show (2:ℚ) ≠ 0 by norm_num),
      show t + (k:ℤ) + (0 - (k:ℤ)) = t by ring]
  · have hq : (2:ℚ)^52 ≤ (n:ℚ) * 2^t := by
      have h5 : (2:ℚ)^53 ≤ (n:ℚ) * 2^t := not_lt.mp hcase
      calc (2:ℚ)^52 ≤ 2^53 := by norm_num
      _ ≤ _ := h5
    have hfuel : (n:ℚ) * 2^(t - (1200:ℕ)) < 2^53 := by
      have hn : (n:ℚ) < 2^53 := by exact_mod_cast h2
      have hexp : (2:ℚ)^(t - (1200:ℕ)) ≤ 2^(-100 : ℤ) := by
        apply zpow_le_zpow_right₀ (by norm_num)
        push_cast
        omega
      have hpos : (0:ℚ) < 2^(t - (1200:ℕ)) := zpow_pos (by norm_num) _
      have h100 : (2:ℚ)^(-100 : ℤ) ≤ 1 := by
        rw [zpow_neg]
        rw [show ((100:ℤ)) = ((100:ℕ):ℤ) by norm_num, zpow_natCast]
        rw [inv_le_one_iff₀]
        right
        norm_num
      calc (n:ℚ) * 2^(t - (1200:ℕ)) < 2^53 * 2^(t - (1200:ℕ)) := by
            apply mul_lt_mul_of_pos_right hn hpos
      _ ≤ 2^53 * 1 := by
            apply mul_le_mul_of_nonneg_left (le_trans hexp h100); norm_num
      _ = 2^53 := by norm_num
    obtain ⟨k, hk, hge, hlt⟩ := scaleInto_of_ge 1200 n t 0 hq hfuel
    obtain ⟨N, hN, _⟩ := sig_nat n (t - k) hge h2
    rw [hk]
    simp only
    rw [← hN, roundHalfEven_natCast]
    push_cast
    rw [hN]
    rw [mul_assoc, ← zpow_add₀ (show (2:ℚ) ≠ 0 by norm_num),
      show t - (k:ℤ) + (0 + (k:ℤ)) = t by ring]

lemma walletTokenAmountVal_exact (a : ℕ) (h : a ≤ 2^53) :
    walletTokenAmountVal a 0 = a := by
  rw [walletTokenAmountVal]
  rcases Nat.eq_zero_or_pos a with h0 | hpos
  · subst h0; simp [roundDouble]
  rcases eq_or_lt_of_le h with heq | hlt
  · subst heq
    have harg : ((2^53 : ℕ) : ℚ) / 10^0 = ((2^52 : ℕ) : ℚ) * 2^(1:ℤ) := by
      push_cast; norm_num
    rw [harg,
      roundDouble_dyadic (2^52) 1 (by norm_num) (by norm_num) (by norm_num) (by norm_num)]
    push_cast; norm_num
  · have harg : ((a : ℕ) : ℚ) / 10^0 = ((a : ℕ) : ℚ) * 2^(0:ℤ) := by
      norm_num
    rw [harg, roundDouble_dyadic a 0 hpos hlt (by norm_num) (by norm_num)]
    norm_num

lemma walletTokenAmountVal_example : walletTokenAmountVal 1500000 6 = 3/2 := by
  rw [walletTokenAmountVal]
  have harg : ((1500000 : ℕ) : ℚ) / 10^6 = ((3 : ℕ) : ℚ) * 2^(-1 : ℤ) := by
    rw [zpow_neg, show ((2:ℚ)^(1:ℤ)) = 2 by norm_num]
    norm_num
  rw [harg, roundDouble_dyadic 3 (-1) (by norm_num) (by norm_num) (by norm_num) (by norm_num)]
  rw [zpow_neg, show ((2:ℚ)^(1:ℤ)) = 2 by norm_num]
  norm_num

lemma roundHalfEven_tie : roundHalfEven ((2:ℚ)^52 + 1/2) = 2^52 := by
  have hfloor : ⌊(2:ℚ)^52 + 1/2⌋ = 2^52 := by
    rw [show ((2:ℚ)^52 + 1/2) = ((2^52 : ℤ) : ℚ) + 1/2 by push_cast; ring,
      Int.floor_int_add]
    norm_num [Int.floor_eq_zero_iff, Set.mem_Ico]
  rw [roundHalfEven, hfloor]
  norm_num

lemma walletTokenAmountVal_collapse :
    walletTokenAmountVal (2^53 + 1) 0 = 2^53 := by
  rw [walletTokenAmountVal]
  have harg : ((2^53 + 1 : ℕ) : ℚ) / 10^0 = (2:ℚ)^53 + 1 := by push_cast; norm_num
  rw [harg]
  have hne : ((2:ℚ)^53 + 1) ≠ 0 := by norm_num
  have hnlt : ¬ ((2:ℚ)^53 + 1) < 0 := by norm_num
  rw [roundDouble, if_neg hne, if_neg hnlt]
  simp only [if_neg hnlt]
  have hscale : scaleInto 1200 ((2:ℚ)^53 + 1) 0 = ((2:ℚ)^52 + 1/2, 1) := by
    rw [show (1200:ℕ) = 1199 + 1 from rfl, scaleInto_succ,
      if_neg (by norm_num), if_pos (by norm_num),
      show ((2:ℚ)^53 + 1) / 2 = 2^52 + 1/2 by norm_num,
      show (0:ℤ) + 1 = 1 by norm_num]
    exact scaleInto_stop 1199 _ 1 (by norm_num) (by norm_num)
  rw [hscale]
  simp only
  rw [roundHalfEven_tie]
  push_cast
  norm_num

lemma walletTokenAmountVal_collapse_pair :
    walletTokenAmountVal (2^53) 0 = walletTokenAmountVal (2^53 + 1) 0 := by
  rw [walletTokenAmountVal_exact (2^53) (le_refl _), walletTokenAmountVal_collapse]
  norm_num

/-! ## Helper lemmas: first match of a linear search -/

lemma find?_append_first {α : Type} (p : α → Bool) (pre post : List α) (t : α)
    (hpre : ∀ x ∈ pre, ¬ p x = true) (ht : p t = true) :
    (pre ++ t :: post).find? p = some t := by
  induction pre with
  | nil => simpa using List.find?_cons_of_pos post ht
  | cons a rest ih =>
    have ha : ¬ p a = true := hpre a (by simp)
    rw [List.cons_append, List.find?_cons_of_neg _ (by simpa using ha)]
    exact ih (fun x hx => hpre x (by simp [hx]))

lemma resolve_symbol_or_mint_eq (tokens : List TokenEntry) (q : String) :
    resolve_symbol_or_mint tokens q =
      if pyNormalize q = "SOL" ∨ pyNormalize q = "WSOL" then Resolved.ok (some WSOL_MINT)
      else if pyNormalize q = "USDC" then .ok (some USDC_MINT)
      else if isMintShaped (pyNormalize q) then .ok (some (pyNormalize q))
      else
        match tokens.find? (fun t => pyUpper (t.symbol.getD "") == pyNormalize q) with
        | some t => .ok t.address
        | none => .httpError 404 := rfl

/-! ## Claim theorems -/

/-- Claim C1, counterexample.  The claim states that for every token entry with
raw integer amount `a` and decimal count `d` the wallet endpoint's reported
token amount string is the correct decimal string for `a / 10^d`.  The
reported string is `str(amt)` where `amt` is the Python float
`int(t["amount"]) / (10**t["decimals"])` (`main.py:275,278`), so it is a
function of the binary64 value `walletTokenAmountVal a d` alone.  Since
`a = 2^53` and `a = 2^53 + 1` (with `d = 0`) produce the same float, no
string-of-float function whatsoever can report the correct decimal string for
both; the claim is false. -/
theorem C1_counterexample :
    ¬ ∃ toStr : ℚ → String, ∀ a d : ℕ,
      parseDecimal (toStr (walletTokenAmountVal a d)) = some ((a : ℚ) / 10 ^ d) := by
  rintro ⟨toStr, h⟩
  have h1 := h (2^53) 0
  rw [walletTokenAmountVal_collapse_pair] at h1
  have h2 := h (2^53 + 1) 0
  rw [h2] at h1
  have h3 := Option.some.inj h1
  push_cast at h3
  norm_num at h3

/-- Claim C1, amended.  The reported token amount is a decimal rendering of the
binary64 double nearest to `a / 10^d`: every integer raw amount up to `2^53`
(with `d = 0`) is represented exactly, and the specification's example
`a = 1500000, d = 6` gives exactly `1.5` (the value of the decimal string
`"1.5"`); but the double collapses distinct raw amounts from `2^53` on
(`a = 2^53` and `a = 2^53 + 1` give the same reported string). -/
theorem C1_amended :
    (∀ a : ℕ, a ≤ 2^53 → walletTokenAmountVal a 0 = (a : ℚ)) ∧
    walletTokenAmountVal 1500000 6 = 3/2 ∧
    parseDecimal "1.5" = some (3/2) ∧
    walletTokenAmountVal (2^53) 0 = walletTokenAmountVal (2^53 + 1) 0 := by
  refine ⟨walletTokenAmountVal_exact, walletTokenAmountVal_example, ?_,
    walletTokenAmountVal_collapse_pair⟩
  rw [parseDecimal, show parseDecimalParts "1.5" = some ⟨false, 15, 1⟩ by decide]
  norm_num [decPartsVal]

/-- Claim C1, witness for the amended theorem at a concrete input. -/
theorem C1_amended_witness : walletTokenAmountVal 42 0 = (42 : ℚ) :=
  C1_amended.1 42 (by norm_num)

/-- Claim C2.  The wallet endpoint rejects every address whose length is below
32 or above 44 characters with HTTP 400 and no upstream call, and the length
validation never rejects an address of length 32 to 44 (no HTTP 400 is
possible for such an address). -/
theorem C2_wallet_address_length :
    ∀ (address : String) (key : Option String) (fetch : Except String WalletData),
      ((address.length < 32 ∨ 44 < address.length) →
        get_wallet_balances address key fetch
          = (.httpError 400 "Invalid Solana address", false)) ∧
      (32 ≤ address.length → address.length ≤ 44 →
        ∀ d : String, (get_wallet_balances address key fetch).1 ≠ .httpError 400 d) := by
  intro address key fetch
  constructor
  · intro h
    rw [get_wallet_balances.eq_def, if_pos h]
  · intro h1 h2 d
    rw [get_wallet_balances.eq_def, if_neg (by omega)]
    cases key with
    | none => simp
    | some k =>
      cases fetch with
      | error e => simp
      | ok data => simp

/-- Claim C2, witness: a 3-character address is rejected with HTTP 400 and no
upstream call; a 32-character address is not rejected by the length check. -/
theorem C2_witness :
    get_wallet_balances "abc" none (.error "x")
      = (.httpError 400 "Invalid Solana address", false) ∧
    (get_wallet_balances lowerMintQuery none (.error "x")).1
      ≠ .httpError 400 "Invalid Solana address" := by
  constructor
  · exact (C2_wallet_address_length "abc" none (.error "x")).1 (Or.inl (by decide))
  · exact (C2_wallet_address_length lowerMintQuery none (.error "x")).2
      (by decide) (by decide) "Invalid Solana address"

/-- Claim C3, counterexample.  The claim states that a 32-44 character
alphanumeric query is returned as-is.  In fact `resolve_symbol_or_mint`
returns the normalised (upper-cased) query, which differs from the original
for any lowercase mint-shaped input. -/
theorem C3_counterexample :
    resolve_symbol_or_mint [] lowerMintQuery = .ok (some upperMintQuery) ∧
    upperMintQuery ≠ lowerMintQuery := by
  constructor
  · decide
  · decide

/-- Claim C3, amended.  Symbol-to-mint resolution is a flat linear search over
the token list: for a query whose normalisation is not SOL/WSOL/USDC and not
mint-shaped, the resolver returns the address of the first entry whose
upper-cased symbol equals the normalised query, and raises HTTP 404 when no
entry matches; a query whose normalisation is mint-shaped (32-44
alphanumeric characters) is returned in its **normalised (upper-cased)**
form, without consulting the list. -/
theorem C3_amended :
    ∀ (tokens : List TokenEntry) (q : String),
      (pyNormalize q ≠ "SOL" → pyNormalize q ≠ "WSOL" → pyNormalize q ≠ "USDC" →
        isMintShaped (pyNormalize q) = false →
        ((∀ t ∈ tokens, ¬ pyUpper (t.symbol.getD "") = pyNormalize q) →
          resolve_symbol_or_mint tokens q = .httpError 404) ∧
        (∀ (pre post : List TokenEntry) (t : TokenEntry),
          tokens = pre ++ t :: post →
          (∀ t2 ∈ pre, ¬ pyUpper (t2.symbol.getD "") = pyNormalize q) →
          pyUpper (t.symbol.getD "") = pyNormalize q →
          resolve_symbol_or_mint tokens q = .ok t.address)) ∧
      (isMintShaped (pyNormalize q) = true →
        resolve_symbol_or_mint tokens q = .ok (some (pyNormalize q))) := by
  intro tokens q
  constructor
  · intro hsol hwsol husdc hshape
    constructor
    · intro hnone
      rw [resolve_symbol_or_mint_eq]
      rw [if_neg (by tauto), if_neg husdc, if_neg (by simp [hshape])]
      have hfind : tokens.find? (fun t => pyUpper (t.symbol.getD "") == pyNormalize q)
          = none := by
        rw [List.find?_eq_none]
        intro t ht
        simpa using hnone t ht
      rw [hfind]
    · intro pre post t heq hpre ht
      rw [resolve_symbol_or_mint_eq]
      rw [if_neg (by tauto), if_neg husdc, if_neg (by simp [hshape])]
      have hfind : tokens.find? (fun t => pyUpper (t.symbol.getD "") == pyNormalize q)
          = some t := by
        rw [heq]
        apply find?_append_first
        · intro x hx
          simpa using hpre x hx
        · simpa using ht
      rw [hfind]
  · intro hshape
    have hlen : 32 ≤ (pyNormalize q).length := by
      have h4 := hshape
      simp only [isMintShaped, Bool.and_eq_true, decide_eq_true_eq] at h4
      exact h4.1.1
    have hsol : pyNormalize q ≠ "SOL" := by
      intro he; rw [he] at hlen; exact absurd hlen (by decide)
    have hwsol : pyNormalize q ≠ "WSOL" := by
      intro he; rw [he] at hlen; exact absurd hlen (by decide)
    have husdc : pyNormalize q ≠ "USDC" := by
      intro he; rw [he] at hlen; exact absurd hlen (by decide)
    rw [resolve_symbol_or_mint_eq]
    rw [if_neg (by tauto), if_neg husdc, if_pos hshape]

/-- Claim C3, witness for the amended theorem: first-match lookup (a duplicated
symbol resolves to the first entry's address), a no-match 404, and the
upper-cased return of a mint-shaped query. -/
theorem C3_amended_witness :
    resolve_symbol_or_mint demoTokens "$bonk" = .ok (some "b1") ∧
    resolve_symbol_or_mint demoTokens "zzz" = .httpError 404 ∧
    resolve_symbol_or_mint demoTokens lowerMintQuery = .ok (some upperMintQuery) := by
  refine ⟨?_, ?_, ?_⟩
  · exact ((C3_amended demoTokens "$bonk").1 (by decide) (by decide) (by decide)
      (by decide)).2 [⟨some "AAA", some "a0"⟩] [⟨some "BONK", some "b2"⟩]
      ⟨some "BONK", some "b1"⟩ (by decide) (by decide) (by decide)
  · exact ((C3_amended demoTokens "zzz").1 (by decide) (by decide) (by decide)
      (by decide)).1 (by decide)
  · exact (C3_amended demoTokens lowerMintQuery).2 (by decide)

/-- Claim C4, counterexample.  The claim states the price endpoint's fallback
order is Jupiter, then Birdeye, then CoinGecko, a later provider only being
consulted after every earlier one failed.  On an input whose Jupiter quote
fails, the endpoint consults CoinGecko without ever consulting Birdeye, so
CoinGecko is reached although Birdeye has not failed (it was never called):
the claimed order is false. -/
theorem C4_counterexample :
    Provider.coingecko ∈ (get_token_price lowerMintQuery jupiterDownUpstream).2 ∧
    Provider.birdeye ∉ (get_token_price lowerMintQuery jupiterDownUpstream).2 := by
  have htrace : (get_token_price lowerMintQuery jupiterDownUpstream).2
      = [Provider.jupiter, Provider.coingecko] := rfl
  rw [htrace]
  constructor
  · simp
  · simp

/-- Claim C4, amended.  The price endpoint's provider fallback is linear in the
order Jupiter, then CoinGecko (Birdeye appears only in the separate
`utils/prices.py` helper and is never consulted by this endpoint): CoinGecko
is consulted only when the Jupiter step failed or returned no usable data,
and no provider is consulted twice. -/
theorem C4_amended :
    ∀ (s : String) (u : PriceUpstream),
      ((get_token_price s u).2 = [] ∨ (get_token_price s u).2 = [Provider.jupiter] ∨
        (get_token_price s u).2 = [Provider.jupiter, Provider.coingecko]) ∧
      (Provider.coingecko ∈ (get_token_price s u).2 → jupiterPrice u.jupiter = none) ∧
      Provider.birdeye ∉ (get_token_price s u).2 ∧
      (get_token_price s u).2.Nodup := by
  intro s u
  rw [get_token_price.eq_def]
  rcases hres : resolve_symbol_or_mint u.tokenList s with mint | st
  · try dsimp only
    by_cases husdc : mint = some USDC_MINT
    · simp [husdc]
    · rw [if_neg husdc]
      rcases hkey : u.heliusKey with _ | k
      · simp
      · try dsimp only
        rcases hmeta : u.metadata with e | md
        · simp
        · try dsimp only
          rcases md with _ | (_ | ⟨m, rest⟩)
          · simp
          · simp
          · try dsimp only
            rcases hdec : m.decimals with _ | dec
            · simp
            · try dsimp only
              rcases hjup : jupiterPrice u.jupiter with _ | p
              · try dsimp only
                rcases hcg : u.cgFetch with e | maps
                · simp [hjup]
                · try dsimp only
                  rcases hlook : cgLookup maps mint s with _ | cgid
                  · simp [hjup]
                  · try dsimp only
                    rcases hprice : u.cgPrice with e | priceOpt
                    · simp [hjup]
                    · rcases priceOpt with _ | p2
                      · simp [hjup]
                      · simp [hjup]
              · simp
  · simp

/-- Claim C4, witness for the amended theorem: with the Jupiter call failing,
the CoinGecko consultation implies the Jupiter step produced no price. -/
theorem C4_amended_witness :
    jupiterPrice jupiterDownUpstream.jupiter = none :=
  (C4_amended lowerMintQuery jupiterDownUpstream).2.1
    (by
      rw [show (get_token_price lowerMintQuery jupiterDownUpstream).2
          = [Provider.jupiter, Provider.coingecko] from rfl]
      simp)

/-- Claim C5, counterexample.  The claim includes the Birdeye price helper
among the places where a raised HTTP-client exception becomes HTTP 502.  The
helper has no exception handler: the client exception propagates unchanged,
and no `HTTPException(502)` is produced. -/
theorem C5_counterexample :
    prices_get_token_price (.error "connection error")
      = .raised (.clientError "connection error") ∧
    ¬ ∃ d : String,
      prices_get_token_price (.error "connection error")
        = .raised (.httpException 502 d) := by
  constructor
  · rfl
  · rintro ⟨d, h⟩
    rw [show prices_get_token_price (.error "connection error")
        = .raised (.clientError "connection error") from rfl] at h
    simp at h

/-- Claim C5, amended.  A raised HTTP-client exception yields HTTP 502 in the
price endpoint's metadata fetch, the wallet endpoint's balance fetch and the
swap endpoint's quote fetch; the Birdeye price helper instead propagates the
client exception unchanged. -/
theorem C5_amended :
    (∀ (s : String) (u : PriceUpstream) (mint : Option String) (k e : String),
      resolve_symbol_or_mint u.tokenList s = .ok mint →
      mint ≠ some USDC_MINT →
      u.heliusKey = some k →
      u.metadata = .error e →
      (get_token_price s u).1 = .httpError 502 "Failed to fetch token metadata") ∧
    (∀ (address k e : String), 32 ≤ address.length → address.length ≤ 44 →
      (get_wallet_balances address (some k) (.error e)).1
        = .httpError 502 "Failed to fetch wallet balances") ∧
    (∀ (im om : String) (amt : ℚ) (sbps : ℤ) (tokens : List TokenEntry)
        (e : String) (inM outM : Option String),
      resolve_symbol_or_mint tokens im = .ok inM →
      resolve_symbol_or_mint tokens om = .ok outM →
      simulate_swap_endpoint im om amt sbps tokens (.error e)
        = .httpError 502 "Failed to fetch swap quote") ∧
    (∀ e : String, prices_get_token_price (.error e) = .raised (.clientError e)) := by
  refine ⟨?_, ?_, ?_, ?_⟩
  · intro s u mint k e hres husdc hkey hmeta
    rw [get_token_price.eq_def, hres]
    try dsimp only
    rw [if_neg husdc, hkey]
    try dsimp only
    rw [hmeta]
  · intro address k e h1 h2
    rw [get_wallet_balances.eq_def, if_neg (by omega)]
  · intro im om amt sbps tokens e inM outM hin hout
    rw [simulate_swap_endpoint.eq_def, hin, hout]
  · intro e
    rfl

/-- Claim C5, witness for the amended theorem at concrete inputs. -/
theorem C5_witness :
    (get_token_price lowerMintQuery metaDownUpstream).1
      = .httpError 502 "Failed to fetch token metadata" ∧
    (get_wallet_balances lowerMintQuery (some "key") (.error "boom")).1
      = .httpError 502 "Failed to fetch wallet balances" ∧
    simulate_swap_endpoint lowerMintQuery lowerMintQuery 1 50 [] (.error "boom")
      = .httpError 502 "Failed to fetch swap quote" ∧
    prices_get_token_price (.error "boom") = .raised (.clientError "boom") := by
  refine ⟨?_, ?_, ?_, ?_⟩
  · exact C5_amended.1 lowerMintQuery metaDownUpstream (some upperMintQuery)
      "key" "boom" (by decide) (by decide) rfl rfl
  · exact C5_amended.2.1 lowerMintQuery "key" "boom" (by decide) (by decide)
  · exact C5_amended.2.2.1 lowerMintQuery lowerMintQuery 1 50 [] "boom"
      (some upperMintQuery) (some upperMintQuery) (by decide) (by decide)
  · exact C5_amended.2.2.2 "boom"

/-- Claim C6.  When an upstream call succeeds but returns empty or null data,
the endpoint fails with HTTP 404: an empty token-metadata list, a metadata
entry without decimals, an empty swap-route list, and a missing CoinGecko usd
price each produce their 404. -/
theorem C6_empty_upstream_data_404 :
    (∀ (s : String) (u : PriceUpstream) (mint : Option String) (k : String),
      resolve_symbol_or_mint u.tokenList s = .ok mint →
      mint ≠ some USDC_MINT →
      u.heliusKey = some k →
      u.metadata = .ok (some []) →
      (get_token_price s u).1 = .httpError 404 "Token metadata not found") ∧
    (∀ (s : String) (u : PriceUpstream) (mint : Option String) (k : String)
        (m : MetaEntry) (rest : List MetaEntry),
      resolve_symbol_or_mint u.tokenList s = .ok mint →
      mint ≠ some USDC_MINT →
      u.heliusKey = some k →
      u.metadata = .ok (some (m :: rest)) →
      m.decimals = none →
      (get_token_price s u).1 = .httpError 404 "Decimals unavailable") ∧
    (∀ (im om : String) (amt : ℚ) (sbps : ℤ) (tokens : List TokenEntry)
        (inM outM : Option String),
      resolve_symbol_or_mint tokens im = .ok inM →
      resolve_symbol_or_mint tokens om = .ok outM →
      simulate_swap_endpoint im om amt sbps tokens (.ok [])
        = .httpError 404 "No liquidity route found") ∧
    (∀ (s : String) (u : PriceUpstream) (mint : Option String) (k : String)
        (m : MetaEntry) (rest : List MetaEntry) (dec : ℕ) (maps : CGMaps)
        (cgid : String),
      resolve_symbol_or_mint u.tokenList s = .ok mint →
      mint ≠ some USDC_MINT →
      u.heliusKey = some k →
      u.metadata = .ok (some (m :: rest)) →
      m.decimals = some dec →
      jupiterPrice u.jupiter = none →
      u.cgFetch = .ok maps →
      cgLookup maps mint s = some cgid →
      u.cgPrice = .ok none →
      (get_token_price s u).1 = .httpError 404 "Price not available on CoinGecko") := by
  refine ⟨?_, ?_, ?_, ?_⟩
  · intro s u mint k hres husdc hkey hmeta
    rw [get_token_price.eq_def, hres]
    try dsimp only
    rw [if_neg husdc, hkey]
    try dsimp only
    rw [hmeta]
  · intro s u mint k m rest hres husdc hkey hmeta hdec
    rw [get_token_price.eq_def, hres]
    try dsimp only
    rw [if_neg husdc, hkey]
    try dsimp only
    rw [hmeta]
    try dsimp only
    rw [hdec]
  · intro im om amt sbps tokens inM outM hin hout
    rw [simulate_swap_endpoint.eq_def, hin, hout]
  · intro s u mint k m rest dec maps cgid hres husdc hkey hmeta hdec hjup hcg hlook hprice
    rw [get_token_price.eq_def, hres]
    try dsimp only
    rw [if_neg husdc, hkey]
    try dsimp only
    rw [hmeta]
    try dsimp only
    rw [hdec]
    try dsimp only
    rw [hjup]
    try dsimp only
    rw [hcg]
    try dsimp only
    rw [hlook]
    try dsimp only
    rw [hprice]

/-- Claim C6, witness at concrete inputs for all four 404 paths. -/
theorem C6_witness :
    (get_token_price lowerMintQuery emptyMetaUpstream).1
      = .httpError 404 "Token metadata not found" ∧
    (get_token_price lowerMintQuery noDecimalsUpstream).1
      = .httpError 404 "Decimals unavailable" ∧
    simulate_swap_endpoint lowerMintQuery lowerMintQuery 1 50 [] (.ok [])
      = .httpError 404 "No liquidity route found" ∧
    (get_token_price lowerMintQuery cgNoPriceUpstream).1
      = .httpError 404 "Price not available on CoinGecko" := by
  refine ⟨?_, ?_, ?_, ?_⟩
  · exact C6_empty_upstream_data_404.1 lowerMintQuery emptyMetaUpstream
      (some upperMintQuery) "key" (by decide) (by decide) rfl rfl
  · exact C6_empty_upstream_data_404.2.1 lowerMintQuery noDecimalsUpstream
      (some upperMintQuery) "key" { decimals := none } [] (by decide) (by decide)
      rfl rfl rfl
  · exact C6_empty_upstream_data_404.2.2.1 lowerMintQuery lowerMintQuery 1 50 []
      (some upperMintQuery) (some upperMintQuery) (by decide) (by decide)
  · exact C6_empty_upstream_data_404.2.2.2 lowerMintQuery cgNoPriceUpstream
      (some upperMintQuery) "key" { decimals := some 6 } [] 6
      { mint_to_cgid := fun _ => some "cg-id", symbol_to_cgid := fun _ => none }
      "cg-id" (by decide) (by decide) rfl rfl rfl rfl rfl rfl rfl

/-- Claim C7.  Lamports-to-SOL conversion divides by exactly `10^9`: the wallet
endpoint's `sol_balance` is `lamports / 10^9`, the RPC helper's `sol_balance`
is `value / LAMPORTS_PER_SOL`, and `LAMPORTS_PER_SOL = 10^9`.  (Division is
modelled exactly on `ℚ`.) -/
theorem C7_lamports_conversion :
    (∀ (address k : String) (L : ℕ) (toks : List RawToken),
      32 ≤ address.length → address.length ≤ 44 →
      ∃ resp : WalletResponse,
        (get_wallet_balances address (some k) (.ok ⟨some L, toks⟩)).1 = .ok resp ∧
        resp.sol_balance = (L : ℚ) / 10 ^ 9) ∧
    (∀ (address : String) (L : ℕ) (accts : List RpcTokenAccount),
      (get_wallet_info address L accts).sol_balance = (L : ℚ) / 10 ^ 9) ∧
    LAMPORTS_PER_SOL = 10 ^ 9 := by
  refine ⟨?_, ?_, by norm_num [LAMPORTS_PER_SOL]⟩
  · intro address k L toks h1 h2
    refine ⟨{ address := address
              sol_balance := (L : ℚ) / 10 ^ 9
              tokens := toks.map (fun t =>
                { mint := t.mint
                  amountVal := walletTokenAmountVal t.amount t.decimals
                  decimals := t.decimals }) }, ?_, rfl⟩
    rw [get_wallet_balances.eq_def, if_neg (by omega)]
    rfl
  · intro address L accts
    rw [get_wallet_info]
    norm_num [LAMPORTS_PER_SOL]

/-- Claim C7, witness at a concrete input. -/
theorem C7_witness :
    ∃ resp : WalletResponse,
      (get_wallet_balances lowerMintQuery (some "key")
        (.ok ⟨some 2500000000, []⟩)).1 = .ok resp ∧
      resp.sol_balance = ((2500000000 : ℕ) : ℚ) / 10 ^ 9 :=
  C7_lamports_conversion.1 lowerMintQuery "key" 2500000000 [] (by decide) (by decide)

/-- Claim C8, counterexample.  The claim quantifies over all inputs with
successfully parsed prices.  A parsed output price of `0` is such an input,
but the simulation raises an uncaught `ZeroDivisionError` instead of
returning the claimed estimated output. -/
theorem C8_counterexample :
    simulate_swap zeroOutPriceOf "MINTA" "MINTB" 5 = .zeroDivRaised ∧
    TradeResult.zeroDivRaised
      ≠ .ok (2 * 5 / 0 * (1 - 5/1000)) (5/1000) ["MINTA", "USDC", "MINTB"] := by
  constructor
  · rfl
  · intro h
    exact TradeResult.noConfusion h

/-- Claim C8, amended.  For successfully parsed prices with a nonzero output
price, the mock swap returns estimated output
`(p_in * a / p_out) * (1 - 0.005)`, the fixed slippage `0.005` and the route
`[input_mint, "USDC", output_mint]`; a parsed output price of `0` instead
raises an uncaught `ZeroDivisionError`. -/
theorem C8_amended (priceOf : String → Option ℚ) (im om : String)
    (a pIn pOut : ℚ) (h1 : priceOf im = some pIn) (h2 : priceOf om = some pOut)
    (h3 : pOut ≠ 0) :
    simulate_swap priceOf im om a
      = .ok (pIn * a / pOut * (1 - 5/1000)) (5/1000) [im, "USDC", om] := by
  rw [simulate_swap.eq_def, h1, h2]
  try dsimp only
  rw [if_neg h3]

/-- Claim C8, witness for the amended theorem at a concrete input. -/
theorem C8_amended_witness :
    simulate_swap (fun _ => some 2) "MINTA" "MINTB" 5
      = .ok (2 * 5 / 2 * (1 - 5/1000)) (5/1000) ["MINTA", "USDC", "MINTB"] :=
  C8_amended (fun _ => some 2) "MINTA" "MINTB" 5 2 2 rfl rfl (by norm_num)

/-- Claim C9, counterexample.  The claim's examples include the USDC mint
address itself among the inputs that return the static price.  Resolution
upper-cases the query, so the USDC mint resolves to a different (upper-cased)
string and the static branch is not taken: with no Helius key configured the
endpoint returns 501, not the static price. -/
theorem C9_counterexample :
    (get_token_price USDC_MINT noKeyUpstream).1
      = .httpError 501 "Helius API key not configured" ∧
    (get_token_price USDC_MINT noKeyUpstream).1 ≠ .ok (some USDC_MINT) 1 "static" := by
  constructor
  · rfl
  · intro h
    rw [show (get_token_price USDC_MINT noKeyUpstream).1
        = .httpError 501 "Helius API key not configured" from rfl] at h
    exact PriceResult.noConfusion h

/-- Claim C9, amended.  Every query that normalises to the symbol `USDC`
returns price `1.0` with source `static` and no provider call; but the USDC
mint address itself does not reach the static branch, because resolution
returns the upper-cased query, which differs from `USDC_MINT`. -/
theorem C9_amended :
    (∀ (s : String) (u : PriceUpstream), pyNormalize s = "USDC" →
      get_token_price s u = (.ok (some USDC_MINT) 1 "static", [])) ∧
    (∀ tokens : List TokenEntry,
      resolve_symbol_or_mint tokens USDC_MINT = .ok (some (pyUpper USDC_MINT))) ∧
    pyUpper USDC_MINT ≠ USDC_MINT := by
  refine ⟨?_, ?_, by decide⟩
  · intro s u h
    have hres : resolve_symbol_or_mint u.tokenList s = .ok (some USDC_MINT) := by
      rw [resolve_symbol_or_mint_eq, h]
      rw [if_neg (by decide), if_pos rfl]
    rw [get_token_price.eq_def, hres]
    try dsimp only
    rw [if_pos rfl]
  · intro tokens
    have h1 : pyNormalize USDC_MINT = pyUpper USDC_MINT := by decide
    rw [resolve_symbol_or_mint_eq, h1]
    rw [if_neg (by decide), if_neg (by decide), if_pos (by decide)]

/-- Claim C9, witness for the amended theorem at a concrete input. -/
theorem C9_amended_witness :
    get_token_price " $usdc" noKeyUpstream = (.ok (some USDC_MINT) 1 "static", []) :=
  C9_amended.1 " $usdc" noKeyUpstream (by decide)

/-- Claim C10.  `load_spl_token_list` swallows every fetch failure: when all
token-list URLs fail it returns the empty list (it never raises), and a query
that is neither special-cased nor mint-shaped then yields HTTP 404 from
`resolve_symbol_or_mint` rather than any 5xx error. -/
theorem C10_token_list_failure :
    (∀ fetches : List (Except String (Option (List TokenEntry))),
      (∀ f ∈ fetches, ∃ e, f = .error e) → load_spl_token_list fetches = []) ∧
    (∀ (fetches : List (Except String (Option (List TokenEntry)))) (q : String),
      (∀ f ∈ fetches, ∃ e, f = .error e) →
      pyNormalize q ≠ "SOL" → pyNormalize q ≠ "WSOL" → pyNormalize q ≠ "USDC" →
      isMintShaped (pyNormalize q) = false →
      resolve_symbol_or_mint (load_spl_token_list fetches) q = .httpError 404) := by
  have hempty : ∀ fetches : List (Except String (Option (List TokenEntry))),
      (∀ f ∈ fetches, ∃ e, f = .error e) → load_spl_token_list fetches = [] := by
    intro fetches h
    induction fetches with
    | nil => rfl
    | cons f rest ih =>
      obtain ⟨e, he⟩ := h f (by simp)
      subst he
      rw [show load_spl_token_list (.error e :: rest) = load_spl_token_list rest
        from rfl]
      exact ih (fun f2 hf2 => h f2 (by simp [hf2]))
  refine ⟨hempty, ?_⟩
  intro fetches q hfail hsol hwsol husdc hshape
  rw [hempty fetches hfail, resolve_symbol_or_mint_eq]
  rw [if_neg (by tauto), if_neg husdc, if_neg (by simp [hshape])]
  rfl

/-- Claim C10, witness at a concrete input: both URLs fail and a plain symbol
query yields 404. -/
theorem C10_witness :
    resolve_symbol_or_mint (load_spl_token_list [.error "e1", .error "e2"]) "BONK"
      = .httpError 404 :=
  C10_token_list_failure.2 [.error "e1", .error "e2"] "BONK"
    (by
      intro f hf
      simp only [List.mem_cons, List.mem_singleton] at hf
      rcases hf with h | h | h
      · exact ⟨"e1", h⟩
      · exact ⟨"e2", h⟩
      · exact absurd h (by simp))
    (by decide) (by decide) (by decide) (by decide)

end SolGPT
